import Mathlib

/-!
Shallow embedding of the HTTP client engine in `src/fetch.cpp` (liora-lib).

C++ byte strings (`std::string`, `std::vector<unsigned char>`) are modelled
as `List Nat` of byte values; `strBytes` converts the ASCII literals that
appear in the source into such byte lists.  Machine integers (`long`,
`long long`, `size_t`) are modelled as `Int`/`Nat`; none of the claims
exercises overflow of a 64-bit quantity.
-/

/-- Bytes of an ASCII string literal (each character's code point). -/
def strBytes (s : String) : List Nat :=
  s.data.map Char.toNat

/-- C-locale `isspace` on a byte: space, tab, LF, VT, FF, CR. -/
def isSpaceB (b : Nat) : Bool :=
  b = 32 || b = 9 || b = 10 || b = 11 || b = 12 || b = 13

/-- C-locale `tolower` on a byte: maps A-Z to a-z, fixes everything else.
Mirrors the lambda inside `lower` in fetch.cpp. -/
def lowerB (b : Nat) : Nat :=
  if 65 ≤ b ∧ b ≤ 90 then b + 32 else b

/-- `lower` from fetch.cpp: byte-wise `tolower` over the whole string. -/
def lowerBytes (l : List Nat) : List Nat :=
  l.map lowerB

/-- `trim` from fetch.cpp: drop `isspace` bytes from both ends. -/
def trimBytes (l : List Nat) : List Nat :=
  ((l.dropWhile isSpaceB).reverse.dropWhile isSpaceB).reverse

/-- The CR/LF stripping loop at the top of `ResponseData::addHeaderLine`:
pop trailing bytes while they are `\r` (13) or `\n` (10). -/
def stripTrail (l : List Nat) : List Nat :=
  (l.reverse.dropWhile (fun b => b = 13 || b = 10)).reverse

/-- Boolean byte-list prefix test (models `line.rfind("HTTP/", 0) == 0`). -/
def isPrefixB : List Nat → List Nat → Bool
  | [], _ => true
  | _ :: _, [] => false
  | a :: p, b :: l => a = b && isPrefixB p l

/-- Boolean contiguous-subsequence test on byte lists. -/
def containsSeq : List Nat → List Nat → Bool
  | l, pat =>
    isPrefixB pat l ||
      match l with
      | [] => false
      | _ :: t => containsSeq t pat

/-- Response accumulator state, mirroring `struct ResponseData` in fetch.cpp.
The C++ `std::map` keyed by lower-cased header name is modelled as an
association list with unique keys; the claims only concern the grouping of
values under a key and their order, never the cross-key iteration order. -/
structure ResponseData where
  body : List Nat
  headers : List (List Nat × List (List Nat))
  status : Int
  url : List Nat
  statusText : List Nat
deriving DecidableEq, Repr

/-- A fresh `ResponseData` (C++ default member initialisers). -/
def initResponse : ResponseData :=
  ⟨[], [], 0, [], []⟩

/-- The effect of `headers[key].push_back(val)` on the association list:
append `v` to the entry for `k`, creating the entry when absent. -/
def insertHeader (hs : List (List Nat × List (List Nat))) (k v : List Nat) :
    List (List Nat × List (List Nat)) :=
  match hs with
  | [] => [(k, [v])]
  | (k₀, vs) :: t => if k₀ = k then (k₀, vs ++ [v]) :: t else (k₀, vs) :: insertHeader t k v

/-- Lookup of the value sequence stored under key `k` (empty when absent). -/
def findVals (hs : List (List Nat × List (List Nat))) (k : List Nat) : List (List Nat) :=
  match hs with
  | [] => []
  | (k₀, vs) :: t => if k₀ = k then vs else findVals t k

/-- Total number of header values stored across all keys. -/
def totalVals (hs : List (List Nat × List (List Nat))) : Nat :=
  (hs.map (fun kv => kv.2.length)).sum

/-- Bytes of the ASCII decimal digits 0-9. -/
def isDigitB (b : Nat) : Bool :=
  48 ≤ b && b ≤ 57

/-- Value of a list of ASCII digit bytes read in base 10. -/
def digitsVal (l : List Nat) : Nat :=
  l.foldl (fun a b => a * 10 + (b - 48)) 0

/-- Model of `istringstream >> long`: skip whitespace, read an optional
sign and a non-empty digit run; `none` when extraction fails (C++11 then
stores 0 and sets the fail bit).  Returns the value and the unread rest. -/
def parseLong (l : List Nat) : Option (Int × List Nat) :=
  let l₁ := l.dropWhile isSpaceB
  match l₁ with
  | 43 :: r =>
      if r.takeWhile isDigitB = [] then none
      else some ((digitsVal (r.takeWhile isDigitB) : Int), r.dropWhile isDigitB)
  | 45 :: r =>
      if r.takeWhile isDigitB = [] then none
      else some (-(digitsVal (r.takeWhile isDigitB) : Int), r.dropWhile isDigitB)
  | r =>
      if r.takeWhile isDigitB = [] then none
      else some ((digitsVal (r.takeWhile isDigitB) : Int), r.dropWhile isDigitB)

/-- Model of `iss >> proto` on the status line: skip leading whitespace and
consume one non-whitespace token, returning the unread rest. -/
def afterProto (l : List Nat) : List Nat :=
  (l.dropWhile isSpaceB).dropWhile (fun b => !isSpaceB b)

/-- Status-line parsing inside `addHeaderLine`: `iss >> proto; iss >> status;
getline(iss, rest); statusText = trim(rest)`.  When the numeric extraction
fails the stream is failed, so `getline` leaves `rest` empty and the stored
status is 0; otherwise `getline` reads up to an (interior) LF. -/
def parseStatusLine (l : List Nat) : Int × List Nat :=
  match parseLong (afterProto l) with
  | some (v, r) => (v, trimBytes (r.takeWhile (fun b => b ≠ 10)))
  | none => (0, [])

/-- The key `addHeaderLine` stores for a header line: lower-cased, trimmed
text before the first colon of the stripped line (`lower(trim(substr(0,pos)))`,
with `find(':')` realised as the longest colon-free prefix). -/
def headerKey (raw : List Nat) : List Nat :=
  lowerBytes (trimBytes ((stripTrail raw).takeWhile (fun b => b ≠ 58)))

/-- The value `addHeaderLine` stores for a header line: trimmed text after
the first colon of the stripped line (`trim(substr(pos+1))`). -/
def headerVal (raw : List Nat) : List Nat :=
  trimBytes ((stripTrail raw).drop (((stripTrail raw).takeWhile (fun b => b ≠ 58)).length + 1))

/-- `ResponseData::addHeaderLine`: strip trailing CR/LF; ignore empty lines;
an `HTTP/`-prefixed line starts a new hop (`resetHop()` clears the headers)
and re-parses status code and reason phrase; otherwise split at the first
colon (no colon, i.e. the colon-free prefix is the whole line: ignore),
lower-case and trim the key, trim the value, and append under the key
unless the key is empty. -/
def addHeaderLine (rd : ResponseData) (raw : List Nat) : ResponseData :=
  if stripTrail raw = [] then rd
  else if isPrefixB (strBytes "HTTP/") (stripTrail raw) then
    { rd with
        headers := [],
        status := (parseStatusLine (stripTrail raw)).1,
        statusText := (parseStatusLine (stripTrail raw)).2 }
  else if ((stripTrail raw).takeWhile (fun b => b ≠ 58)).length = (stripTrail raw).length then
    rd
  else if headerKey raw = [] then rd
  else { rd with headers := insertHeader rd.headers (headerKey raw) (headerVal raw) }

/-- Worker-side state of a `FetchWorker` relevant to the callback sinks.
`streaming` stands for `streaming_ && tsfnData_` (both are set together in
the constructor); `wantProgress` likewise for `wantProgress_ && tsfnProg_`. -/
structure WorkerState where
  abort : Bool
  streaming : Bool
  wantProgress : Bool
  maxBodySize : Int
  downloaded : Nat
  resp : ResponseData
deriving DecidableEq, Repr

/-- `FetchWorker::writeBody`: returns the value handed back to the transport
layer together with the updated state.  `ok` models whether the
thread-safe-function `BlockingCall` in the streaming branch throws (the
`catch` there returns 0); the non-streaming `vector::insert` is modelled as
always succeeding (allocation failure is out of scope). -/
def writeBody (w : WorkerState) (chunk : List Nat) (ok : Bool) : Nat × WorkerState :=
  if w.abort then (0, w)
  else if w.streaming then
    if ok then (chunk.length, { w with downloaded := w.downloaded + chunk.length })
    else (0, w)
  else if 0 ≤ w.maxBodySize ∧ (w.resp.body.length + chunk.length : Int) > w.maxBodySize then
    (0, w)
  else
    (chunk.length,
      { w with
          resp := { w.resp with body := w.resp.body ++ chunk },
          downloaded := w.downloaded + chunk.length })

/-- `FetchWorker::writeHeader`: feeds the line to the header accumulator and
always reports the full length back to the transport layer. -/
def writeHeader (w : WorkerState) (line : List Nat) : Nat × WorkerState :=
  (line.length, { w with resp := addHeaderLine w.resp line })

/-- `FetchWorker::onProgress`: nonzero return aborts the transfer; the
progress callback dispatch has no effect on the worker state. -/
def onProgress (w : WorkerState) (_dltotal _dlnow _ultotal _ulnow : Int) : Int :=
  if w.abort then 1 else 0

/-- Fold a sequence of body chunks (each with its streaming-call outcome
flag) through `writeBody`, keeping only the state. -/
def runBody (w : WorkerState) (chunks : List (List Nat × Bool)) : WorkerState :=
  chunks.foldl (fun s c => (writeBody s c.1 c.2).2) w

/-- The fixed reason-phrase table in `FetchWorker::Execute` (the `switch` on
`resp_.status`). -/
def statusTextTable (s : Int) : List Nat :=
  match s with
  | 200 => strBytes "OK"
  | 201 => strBytes "Created"
  | 204 => strBytes "No Content"
  | 301 => strBytes "Moved Permanently"
  | 302 => strBytes "Found"
  | 400 => strBytes "Bad Request"
  | 401 => strBytes "Unauthorized"
  | 403 => strBytes "Forbidden"
  | 404 => strBytes "Not Found"
  | 500 => strBytes "Internal Server Error"
  | _ => []

/-- The tail of `FetchWorker::Execute`: when no reason phrase was captured,
synthesize one from `statusTextTable`; otherwise keep the captured one. -/
def finalizeStatusText (rd : ResponseData) : ResponseData :=
  if rd.statusText = [] then { rd with statusText := statusTextTable rd.status }
  else rd

/-- Terminal outcome of one transfer as seen by the promise bridge. -/
inductive Outcome where
  | success (resp : ResponseData)
  | aborted
  | transportError (rc : Nat)
deriving DecidableEq, Repr

/-- Outcome selection after `curl_easy_perform` in `FetchWorker::Execute`:
the abort flag is checked first (`throw "request aborted"`), then a nonzero
`CURLcode` becomes a transport error, and only then is the response
finalised (status from `CURLINFO_RESPONSE_CODE`, effective URL, reason
phrase synthesis) and handed to `OnOK`.  `rc = 0` is `CURLE_OK`. -/
def executeOutcome (abortFlag : Bool) (rc : Nat) (rd : ResponseData)
    (httpStatus : Int) (effUrl : List Nat) : Outcome :=
  if abortFlag then Outcome.aborted
  else if rc ≠ 0 then Outcome.transportError rc
  else Outcome.success (finalizeStatusText { rd with status := httpStatus, url := effUrl })

/-- A JavaScript value as inspected by `buildMultipartFromNapi`: either a
byte buffer (`IsBuffer()`) or a value whose `ToString()` is the given
string. -/
inductive JsVal where
  | buffer (bytes : List Nat)
  | str (s : String)
deriving DecidableEq, Repr

/-- Result of `ToString().Utf8Value()` on a `JsVal`.  In the code paths
modelled it is only ever reached on non-buffer values; the buffer case is
given Node's UTF-8 decode shape for totality. -/
def jsToString : JsVal → String
  | JsVal.str s => s
  | JsVal.buffer b => String.mk (b.map Char.ofNat)

/-- A multipart field descriptor object: the properties probed by
`buildMultipartFromNapi` (`value`, `data`, `buffer`, `filename`,
`contentType`, each `none` when `o.Has(...)` is false) and the object's own
`ToString()` result. -/
structure MPDescriptor where
  value : Option JsVal
  data : Option JsVal
  buffer : Option JsVal
  filename : Option String
  contentType : Option String
  selfStr : String
deriving DecidableEq, Repr

/-- One multipart field value: a raw buffer, a descriptor object, or any
other value (carried as its `ToString()` result). -/
inductive MPField where
  | buf (bytes : List Nat)
  | obj (d : MPDescriptor)
  | prim (s : String)
deriving DecidableEq, Repr

/-- The `value`/`data`/`buffer` probe chain of the descriptor branch: the
first of the three properties that is present and a buffer supplies the
bytes. -/
def resolvedBytes (d : MPDescriptor) : Option (List Nat) :=
  match d.value with
  | some (JsVal.buffer b) => some b
  | _ =>
    match d.data with
    | some (JsVal.buffer b) => some b
    | _ =>
      match d.buffer with
      | some (JsVal.buffer b) => some b
      | _ => none

/-- `textVal` of the descriptor branch when no byte property matched:
`ToString` of `value` when present, else `ToString` of the object itself. -/
def objText (d : MPDescriptor) : String :=
  match d.value with
  | some jv => jsToString jv
  | none => d.selfStr

/-- The header block of `flushDataPart(true)`: Content-Disposition with the
filename attribute (defaulting to `blob` when the filename string is
empty), then the Content-Type line (defaulting to
`application/octet-stream`), then the blank line. -/
def dispoFile (name filename contentType : String) : String :=
  "Content-Disposition: form-data; name=\"" ++ name ++ "\"; filename=\"" ++
    (if filename = "" then "blob" else filename) ++ "\"\r\n" ++ "Content-Type: " ++
    (if contentType = "" then "application/octet-stream" else contentType) ++ "\r\n\r\n"

/-- `flushDataPart(true)`: header block, raw bytes, trailing CRLF (the
`if (dataPtr && dataLen)` guard appends nothing exactly when the byte list
is empty, which `++ bytes` reproduces). -/
def flushData (name filename contentType : String) (bytes : List Nat) : List Nat :=
  strBytes (dispoFile name filename contentType) ++ bytes ++ strBytes "\r\n"

/-- `flushDataPart(false)`: Content-Disposition without filename, blank
line, the text value, trailing CRLF. -/
def flushText (name text : String) : List Nat :=
  strBytes ("Content-Disposition: form-data; name=\"" ++ name ++ "\"\r\n\r\n") ++
    strBytes text ++ strBytes "\r\n"

/-- Everything one loop iteration of `buildMultipartFromNapi` appends after
the `--boundary\r\n` opener; note this is independent of the boundary.
A raw buffer always becomes a file part (empty filename/contentType, hence
`blob` and `application/octet-stream`); a descriptor becomes a file part
only when its resolved bytes are non-empty (`if (dataPtr && dataLen)`),
otherwise a text part whose `textVal` was never assigned (empty); any other
value becomes a text part of its `ToString()`. -/
def partRest (name : String) : MPField → List Nat
  | MPField.buf bytes => flushData name "" "" bytes
  | MPField.obj d =>
    (match resolvedBytes d with
     | some bytes =>
        if bytes ≠ [] then flushData name (d.filename.getD "") (d.contentType.getD "") bytes
        else flushText name ""
     | none => flushText name (objText d))
  | MPField.prim s => flushText name s

/-- One full loop iteration of `buildMultipartFromNapi` for field
`(name, v)`. -/
def fieldPart (boundary name : String) (v : MPField) : List Nat :=
  strBytes ("--" ++ boundary ++ "\r\n") ++ partRest name v

/-- `buildMultipartFromNapi`: iterate the fields in property order
appending each part, then the closing marker.  The randomly generated
boundary (`randomBoundary()`, wall-clock plus `random_device` entropy) is
taken as a parameter; the claims quantify over it. -/
def buildMultipartFromNapi (fields : List (String × MPField)) (boundary : String) :
    List Nat :=
  fields.foldl (fun acc nv => acc ++ fieldPart boundary nv.1 nv.2) [] ++
    strBytes ("--" ++ boundary ++ "--\r\n")

/-- A segment of a multipart body template: literal bytes or an occurrence
of the boundary token. -/
inductive MPSeg where
  | lit (bytes : List Nat)
  | bnd
deriving DecidableEq, Repr

/-- Instantiate one template segment with a concrete boundary token. -/
def instSeg (boundary : String) : MPSeg → List Nat
  | MPSeg.lit b => b
  | MPSeg.bnd => strBytes boundary

/-- Instantiate a whole template with a concrete boundary token. -/
def instantiateTemplate (t : List MPSeg) (boundary : String) : List Nat :=
  t.foldr (fun s acc => instSeg boundary s ++ acc) []

/-- Boundary-free template of one field's wire form. -/
def fieldTemplate (name : String) (v : MPField) : List MPSeg :=
  [MPSeg.lit (strBytes "--"), MPSeg.bnd, MPSeg.lit (strBytes "\r\n"),
   MPSeg.lit (partRest name v)]

/-- Template of the whole multipart body: the fields in order, then the
closing marker. -/
def mpTemplate (fields : List (String × MPField)) : List MPSeg :=
  fields.foldr (fun nv acc => fieldTemplate nv.1 nv.2 ++ acc) [] ++
    [MPSeg.lit (strBytes "--"), MPSeg.bnd, MPSeg.lit (strBytes "--\r\n")]

/-- `h.Has(k)` on the caller's `headers` object: exact property-name
lookup (the mapping is in property insertion order, keys unique). -/
def hasProp (hs : List (String × String)) (k : String) : Bool :=
  hs.any (fun kv => kv.1 = k)

/-- The `headersKVs_` lines built in the `FetchWorker` constructor: each
non-empty key contributes `key: value` in order. -/
def callerHeaderLines (hs : List (String × String)) : List String :=
  hs.filterMap (fun kv => if kv.1 ≠ "" then some (kv.1 ++ ": " ++ kv.2) else none)

/-- ASCII `tolower` on a `Char` (the lambda used by `lower` and by the
response `headers.get` helper). -/
def lowerChar (c : Char) : Char :=
  if 65 ≤ c.toNat ∧ c.toNat ≤ 90 then Char.ofNat (c.toNat + 32) else c

/-- ASCII lower-casing of a string. -/
def lowerStr (s : String) : String :=
  String.mk (s.data.map lowerChar)

/-- Modelled from the spec: the spec's phrase "a case-insensitive match"
for a header name, used only to compare the spec's condition with the
condition the code actually implements (claim C4). -/
def specCIMatch (hs : List (String × String)) (k : String) : Bool :=
  hs.any (fun kv => lowerStr kv.1 = lowerStr k)

/-- The outgoing header list assembled in `FetchWorker::Execute`: the four
conditional defaults (each suppressed only by an exact `"Name"` or
`"name"` property, computed in the constructor as `haveUserUA_` etc.), the
multipart Content-Type when a form body is used and the caller supplied no
Content-Type, then every caller header line in order. -/
def execHeaderList (hs : List (String × String)) (decompress useMultipart : Bool)
    (boundary : String) : List String :=
  let l : List String := []
  let l := if !(hasProp hs "User-Agent" || hasProp hs "user-agent") then
    l ++ ["User-Agent: undici/6 naruyaizumi"] else l
  let l := if !(hasProp hs "Accept-Encoding" || hasProp hs "accept-encoding") && decompress then
    l ++ ["Accept-Encoding: br, gzip, deflate"] else l
  let l := if !(hasProp hs "Connection" || hasProp hs "connection") then
    l ++ ["Connection: keep-alive"] else l
  let l := if !(hasProp hs "Expect" || hasProp hs "expect") then
    l ++ ["Expect:"] else l
  let l := if useMultipart && !(hasProp hs "Content-Type" || hasProp hs "content-type") then
    l ++ ["Content-Type: multipart/form-data; boundary=" ++ boundary] else l
  l ++ callerHeaderLines hs

/-- A raw line that `addHeaderLine` treats as a status line: after CR/LF
stripping it begins with `HTTP/`. -/
def isStatusLineB (raw : List Nat) : Bool :=
  isPrefixB (strBytes "HTTP/") (stripTrail raw)

/-- A well-formed header line: not a status line, contains a colon, and the
part before the first colon does not trim to the empty string. -/
def wfHeaderLine (raw : List Nat) : Bool :=
  let s := stripTrail raw
  !isPrefixB (strBytes "HTTP/") s &&
    ((s.takeWhile (fun b => b ≠ 58)).length != s.length) &&
    (trimBytes (s.takeWhile (fun b => b ≠ 58)) != [])

/-- All keys of a header map are non-empty and invariant under
lower-casing (contain no upper-case ASCII letter). -/
def goodKeys (hs : List (List Nat × List (List Nat))) : Prop :=
  ∀ p ∈ hs, p.1 ≠ [] ∧ lowerBytes p.1 = p.1

lemma writeBody_preserves_config (w : WorkerState) (chunk : List Nat) (ok : Bool) :
    (writeBody w chunk ok).2.streaming = w.streaming ∧
    (writeBody w chunk ok).2.maxBodySize = w.maxBodySize := by
  unfold writeBody
  split_ifs <;> simp

lemma writeBody_body_bound (w : WorkerState) (chunk : List Nat) (ok : Bool)
    (hs : w.streaming = false) (hK : 0 ≤ w.maxBodySize)
    (hle : (w.resp.body.length : Int) ≤ w.maxBodySize) :
    ((writeBody w chunk ok).2.resp.body.length : Int) ≤ w.maxBodySize := by
  unfold writeBody
  split_ifs with h1 h2 h3 h4
  · exact hle
  · exact absurd h2 (by simp [hs])
  · exact absurd h2 (by simp [hs])
  · exact hle
  · simp only [not_and, not_lt] at h4
    have h5 := h4 hK
    simp only [List.length_append]
    push_cast at h5 ⊢
    omega

lemma runBody_body_bound (chunks : List (List Nat × Bool)) :
    ∀ w : WorkerState, w.streaming = false → 0 ≤ w.maxBodySize →
      (w.resp.body.length : Int) ≤ w.maxBodySize →
      ((runBody w chunks).resp.body.length : Int) ≤ w.maxBodySize := by
  induction chunks with
  | nil =>
    intro w _ _ h
    simpa [runBody] using h
  | cons c t ih =>
    intro w hs hK hle
    have hcfg := writeBody_preserves_config w c.1 c.2
    have hstep := writeBody_body_bound w c.1 c.2 hs hK hle
    have hrw : runBody w (c :: t) = runBody (writeBody w c.1 c.2).2 t := by
      simp [runBody]
    rw [hrw]
    have h1 : (writeBody w c.1 c.2).2.streaming = false := by rw [hcfg.1, hs]
    have h2 : 0 ≤ (writeBody w c.1 c.2).2.maxBodySize := by rw [hcfg.2]; exact hK
    have h3 : ((writeBody w c.1 c.2).2.resp.body.length : Int) ≤
        (writeBody w c.1 c.2).2.maxBodySize := by rw [hcfg.2]; exact hstep
    have h4 := ih (writeBody w c.1 c.2).2 h1 h2 h3
    rwa [hcfg.2] at h4

/-- C1: once the cancellation token is set, every body-sink invocation
returns the abort signal 0 and leaves the whole worker state (in particular
the accumulated response body) unchanged, and the transfer's outcome is the
distinct aborted failure — never a success — even when the perform call
reports any result code, including `CURLE_OK` (`rc = 0`). -/
theorem c1_cancellation_aborts (w : WorkerState) (chunk : List Nat) (ok : Bool)
    (rc : Nat) (rd : ResponseData) (hstat : Int) (eu : List Nat)
    (h : w.abort = true) :
    writeBody w chunk ok = (0, w) ∧
    executeOutcome w.abort rc rd hstat eu = Outcome.aborted ∧
    (∀ r : ResponseData, Outcome.aborted ≠ Outcome.success r) := by
  refine ⟨by simp [writeBody, h], by simp [executeOutcome, h], ?_⟩
  intro r hne
  exact Outcome.noConfusion hne

theorem c1_witness :
    writeBody ⟨true, false, false, -1, 0, initResponse⟩ (strBytes "abc") true =
      (0, ⟨true, false, false, -1, 0, initResponse⟩) ∧
    executeOutcome true 0 initResponse 200 [] = Outcome.aborted := by
  have h := c1_cancellation_aborts ⟨true, false, false, -1, 0, initResponse⟩
    (strBytes "abc") true 0 initResponse 200 [] rfl
  exact ⟨h.1, h.2.1⟩

/-- C2, counterexample: with the cancellation token set, the header sink
does not return the stop value 0 — it returns the full line length, so the
claim that every sink invocation after the token is set returns the stop
value is false at this input. -/
theorem c2_counterexample :
    (⟨true, false, false, -1, 0, initResponse⟩ : WorkerState).abort = true ∧
    (writeHeader ⟨true, false, false, -1, 0, initResponse⟩ (strBytes "x: y\r\n")).1 ≠ 0 := by
  decide

/-- C2, amended: once the cancellation token is set, the body sink returns
the abort signal 0 (leaving the state unchanged) and the progress sink
returns the nonzero stop value 1, but the header sink does not poll the
token: it always returns the full line length. -/
theorem c2_amended_sink_polling (w : WorkerState) (chunk line : List Nat) (ok : Bool)
    (d1 d2 d3 d4 : Int) (h : w.abort = true) :
    writeBody w chunk ok = (0, w) ∧
    onProgress w d1 d2 d3 d4 = 1 ∧
    (writeHeader w line).1 = line.length := by
  exact ⟨by simp [writeBody, h], by simp [onProgress, h], rfl⟩

theorem c2_witness :
    writeBody ⟨true, true, true, -1, 0, initResponse⟩ [5] true =
      (0, ⟨true, true, true, -1, 0, initResponse⟩) ∧
    onProgress ⟨true, true, true, -1, 0, initResponse⟩ 0 0 0 0 = 1 ∧
    (writeHeader ⟨true, true, true, -1, 0, initResponse⟩ (strBytes "a: b")).1 = 4 := by
  have h := c2_amended_sink_polling ⟨true, true, true, -1, 0, initResponse⟩ [5]
    (strBytes "a: b") true 0 0 0 0 rfl
  exact ⟨h.1, h.2.1, h.2.2.trans (by decide)⟩

/-- C3: with no streaming consumer and `maxBodySize = K ≥ 0`, the
accumulated body never exceeds K bytes over any sequence of body-sink
invocations; an invocation whose chunk would push the total past K leaves
the state unchanged and returns the abort signal 0; and a transfer whose
perform call then reports a nonzero result code ends in a failure outcome,
not a success. -/
theorem c3_max_body_size (w : WorkerState) (chunks : List (List Nat × Bool))
    (chunk : List Nat) (ok : Bool) (rc : Nat) (rd : ResponseData) (hstat : Int)
    (eu : List Nat) (hs : w.streaming = false) (hK : 0 ≤ w.maxBodySize) :
    ((w.resp.body.length : Int) ≤ w.maxBodySize →
      ((runBody w chunks).resp.body.length : Int) ≤ w.maxBodySize) ∧
    ((w.resp.body.length + chunk.length : Int) > w.maxBodySize →
      writeBody w chunk ok = (0, w)) ∧
    (rc ≠ 0 → executeOutcome false rc rd hstat eu = Outcome.transportError rc) := by
  refine ⟨fun hle => runBody_body_bound chunks w hs hK hle, fun hov => ?_, fun hrc => ?_⟩
  · unfold writeBody
    split_ifs with h1 h2 h3 h4
    · rfl
    · exact absurd h2 (by simp [hs])
    · exact absurd h2 (by simp [hs])
    · rfl
    · exact absurd ⟨hK, by omega⟩ h4
  · simp [executeOutcome, hrc]

theorem c3_witness :
    ((runBody ⟨false, false, false, 3, 0, { initResponse with body := [1, 2] }⟩
        [([7], true)]).resp.body.length : Int) ≤ 3 ∧
    writeBody ⟨false, false, false, 3, 0, { initResponse with body := [1, 2] }⟩ [9, 9] true =
      (0, ⟨false, false, false, 3, 0, { initResponse with body := [1, 2] }⟩) ∧
    executeOutcome false 23 initResponse 0 [] = Outcome.transportError 23 := by
  have h := c3_max_body_size ⟨false, false, false, 3, 0, { initResponse with body := [1, 2] }⟩
    [([7], true)] [9, 9] true 23 initResponse 0 [] rfl (by decide)
  exact ⟨h.1 (by decide), h.2.1 (by decide), h.2.2 (by decide)⟩

/-- C7: for every field mapping, including the empty one, the produced
multipart body ends with the closing marker `--boundary--CRLF`. -/
theorem c7_closing_boundary (fields : List (String × MPField)) (boundary : String) :
    (∃ pre, buildMultipartFromNapi fields boundary =
        pre ++ strBytes ("--" ++ boundary ++ "--\r\n")) ∧
    buildMultipartFromNapi [] boundary = strBytes ("--" ++ boundary ++ "--\r\n") := by
  exact ⟨⟨_, rfl⟩, rfl⟩

/-- C9: on the success path, an empty captured reason phrase is replaced by
the fixed table entry for the status code, a non-empty captured phrase is
kept untouched, the table maps exactly the ten listed codes to their
phrases, and every other status code yields the empty phrase. -/
theorem c9_reason_phrase_synthesis (rd : ResponseData) (s : Int) :
    (rd.statusText ≠ [] → finalizeStatusText rd = rd) ∧
    (rd.statusText = [] →
      finalizeStatusText rd = { rd with statusText := statusTextTable rd.status }) ∧
    statusTextTable 200 = strBytes "OK" ∧
    statusTextTable 201 = strBytes "Created" ∧
    statusTextTable 204 = strBytes "No Content" ∧
    statusTextTable 301 = strBytes "Moved Permanently" ∧
    statusTextTable 302 = strBytes "Found" ∧
    statusTextTable 400 = strBytes "Bad Request" ∧
    statusTextTable 401 = strBytes "Unauthorized" ∧
    statusTextTable 403 = strBytes "Forbidden" ∧
    statusTextTable 404 = strBytes "Not Found" ∧
    statusTextTable 500 = strBytes "Internal Server Error" ∧
    (s ∉ ([200, 201, 204, 301, 302, 400, 401, 403, 404, 500] : List Int) →
      statusTextTable s = []) := by
  refine ⟨fun h => by simp [finalizeStatusText, h], fun h => by simp [finalizeStatusText, h],
    by decide, by decide, by decide, by decide, by decide, by decide, by decide, by decide,
    by decide, by decide, fun hs => ?_⟩
  unfold statusTextTable
  split <;> simp_all

theorem c9_witness :
    finalizeStatusText { initResponse with statusText := strBytes "Custom", status := 200 } =
      { initResponse with statusText := strBytes "Custom", status := 200 } ∧
    finalizeStatusText { initResponse with status := 404 } =
      { initResponse with status := 404, statusText := strBytes "Not Found" } ∧
    statusTextTable 299 = [] := by
  have h1 := c9_reason_phrase_synthesis
    { initResponse with statusText := strBytes "Custom", status := 200 } 299
  have h2 := c9_reason_phrase_synthesis { initResponse with status := 404 } 299
  obtain ⟨a1, -, -, -, -, -, -, -, -, -, -, -, m1⟩ := h1
  obtain ⟨-, b2, -, -, -, -, -, -, -, -, -, -, -⟩ := h2
  exact ⟨a1 (by decide), (b2 rfl).trans (by decide), m1 (by decide)⟩

lemma trimBytes_nil : trimBytes [] = [] := rfl

lemma lowerBytes_eq_nil {l : List Nat} : lowerBytes l = [] ↔ l = [] := by
  simp [lowerBytes]

lemma addHeaderLine_wf (rd : ResponseData) (raw : List Nat) (h : wfHeaderLine raw = true) :
    addHeaderLine rd raw =
      { rd with headers := insertHeader rd.headers (headerKey raw) (headerVal raw) } := by
  unfold wfHeaderLine at h
  simp only [Bool.and_eq_true, bne_iff_ne, ne_eq, Bool.not_eq_true'] at h
  obtain ⟨⟨hhttp, hlen⟩, hname⟩ := h
  have hline : ¬stripTrail raw = [] := by
    intro h0
    rw [h0] at hname
    simp [trimBytes] at hname
  unfold addHeaderLine
  split_ifs with e1 e2
  · exact absurd e1 (by simp [hhttp])
  · unfold headerKey at e2
    rw [lowerBytes_eq_nil] at e2
    exact absurd e2 hname
  · rfl

lemma addHeaderLine_status (rd : ResponseData) (raw : List Nat)
    (h : isStatusLineB raw = true) :
    addHeaderLine rd raw =
      { rd with
          headers := [],
          status := (parseStatusLine (stripTrail raw)).1,
          statusText := (parseStatusLine (stripTrail raw)).2 } := by
  have hne : ¬stripTrail raw = [] := by
    intro h0
    unfold isStatusLineB at h
    rw [h0] at h
    exact absurd h (by decide)
  unfold addHeaderLine
  rw [if_neg hne, if_pos (show isPrefixB (strBytes "HTTP/") (stripTrail raw) = true from h)]

lemma insertHeader_totalVals (hs : List (List Nat × List (List Nat))) (k v : List Nat) :
    totalVals (insertHeader hs k v) = totalVals hs + 1 := by
  induction hs with
  | nil => simp [insertHeader, totalVals]
  | cons p t ih =>
    obtain ⟨k₀, vs⟩ := p
    by_cases h : k₀ = k
    · simp [insertHeader, h, totalVals]
      omega
    · simp only [insertHeader, if_neg h, totalVals, List.map_cons, List.sum_cons] at ih ⊢
      omega

lemma insertHeader_findVals (hs : List (List Nat × List (List Nat))) (k v k' : List Nat) :
    findVals (insertHeader hs k v) k' = findVals hs k' ++ (if k = k' then [v] else []) := by
  induction hs with
  | nil =>
    by_cases h : k = k' <;> simp [insertHeader, findVals, h]
  | cons p t ih =>
    obtain ⟨k₀, vs⟩ := p
    by_cases h : k₀ = k
    · subst h
      by_cases h' : k₀ = k' <;> simp [insertHeader, findVals, h', ih]
    · by_cases h' : k₀ = k'
      · subst h'
        have : ¬k = k₀ := fun hh => h hh.symm
        simp [insertHeader, findVals, h, this]
      · simp [insertHeader, findVals, h, h', ih]

lemma foldl_insert_totalVals (ls : List (List Nat)) :
    ∀ hs : List (List Nat × List (List Nat)),
      totalVals (ls.foldl (fun h l => insertHeader h (headerKey l) (headerVal l)) hs) =
        totalVals hs + ls.length := by
  induction ls with
  | nil => intro hs; simp
  | cons l t ih =>
    intro hs
    simp only [List.foldl_cons, List.length_cons]
    rw [ih, insertHeader_totalVals]
    omega

lemma foldl_insert_findVals (ls : List (List Nat)) :
    ∀ (hs : List (List Nat × List (List Nat))) (k : List Nat),
      findVals (ls.foldl (fun h l => insertHeader h (headerKey l) (headerVal l)) hs) k =
        findVals hs k ++
          ls.filterMap (fun l => if headerKey l = k then some (headerVal l) else none) := by
  induction ls with
  | nil => intro hs k; simp
  | cons l t ih =>
    intro hs k
    simp only [List.foldl_cons, List.filterMap_cons]
    rw [ih, insertHeader_findVals]
    by_cases h : headerKey l = k <;> simp [h, List.append_assoc]

lemma foldl_addHeaderLine_wf (ls : List (List Nat)) :
    ∀ rd : ResponseData, (∀ l ∈ ls, wfHeaderLine l = true) →
      List.foldl addHeaderLine rd ls =
        { rd with
            headers := ls.foldl (fun h l => insertHeader h (headerKey l) (headerVal l))
              rd.headers } := by
  induction ls with
  | nil => intro rd _; rfl
  | cons l t ih =>
    intro rd hwf
    simp only [List.foldl_cons]
    rw [addHeaderLine_wf rd l (hwf l (by simp))]
    rw [ih _ (fun x hx => hwf x (by simp [hx]))]

/-- C5: feeding a status line and then N well-formed header lines to the
accumulator, starting from any prior state, leaves exactly N header values,
grouped under lower-cased trimmed names with per-name value order equal to
arrival order; all previously accumulated headers are discarded, while
status code and reason phrase are overwritten with those parsed from the
new status line. -/
theorem c5_hop_accumulation (rd : ResponseData) (sl : List Nat) (hls : List (List Nat))
    (hsl : isStatusLineB sl = true) (hwf : ∀ l ∈ hls, wfHeaderLine l = true) :
    totalVals (List.foldl addHeaderLine rd (sl :: hls)).headers = hls.length ∧
    (∀ k, findVals (List.foldl addHeaderLine rd (sl :: hls)).headers k =
      hls.filterMap (fun l => if headerKey l = k then some (headerVal l) else none)) ∧
    (List.foldl addHeaderLine rd (sl :: hls)).status = (parseStatusLine (stripTrail sl)).1 ∧
    (List.foldl addHeaderLine rd (sl :: hls)).statusText =
      (parseStatusLine (stripTrail sl)).2 := by
  have h1 : List.foldl addHeaderLine rd (sl :: hls) =
      { rd with
          headers := hls.foldl (fun h l => insertHeader h (headerKey l) (headerVal l)) [],
          status := (parseStatusLine (stripTrail sl)).1,
          statusText := (parseStatusLine (stripTrail sl)).2 } := by
    simp only [List.foldl_cons]
    rw [addHeaderLine_status rd sl hsl]
    rw [foldl_addHeaderLine_wf hls _ hwf]
  rw [h1]
  refine ⟨?_, ?_, rfl, rfl⟩
  · rw [foldl_insert_totalVals]
    simp [totalVals]
  · intro k
    rw [foldl_insert_findVals]
    simp [findVals]

theorem c5_witness :
    totalVals (List.foldl addHeaderLine
      { initResponse with headers := [(strBytes "stale", [strBytes "old"])], status := 301 }
      [strBytes "HTTP/1.1 302 Found\r\n", strBytes "Set-Cookie: a=1\r\n",
        strBytes "set-cookie: b=2\r\n"]).headers = 2 ∧
    findVals (List.foldl addHeaderLine
      { initResponse with headers := [(strBytes "stale", [strBytes "old"])], status := 301 }
      [strBytes "HTTP/1.1 302 Found\r\n", strBytes "Set-Cookie: a=1\r\n",
        strBytes "set-cookie: b=2\r\n"]).headers (strBytes "set-cookie") =
      [strBytes "a=1", strBytes "b=2"] ∧
    (List.foldl addHeaderLine
      { initResponse with headers := [(strBytes "stale", [strBytes "old"])], status := 301 }
      [strBytes "HTTP/1.1 302 Found\r\n", strBytes "Set-Cookie: a=1\r\n",
        strBytes "set-cookie: b=2\r\n"]).status = 302 := by
  have h := c5_hop_accumulation
    { initResponse with headers := [(strBytes "stale", [strBytes "old"])], status := 301 }
    (strBytes "HTTP/1.1 302 Found\r\n")
    [strBytes "Set-Cookie: a=1\r\n", strBytes "set-cookie: b=2\r\n"]
    (by decide) (by decide)
  exact ⟨h.1, (h.2.1 (strBytes "set-cookie")).trans (by decide), h.2.2.1.trans (by decide)⟩

lemma lowerB_idem (b : Nat) : lowerB (lowerB b) = lowerB b := by
  unfold lowerB
  split_ifs <;> omega

lemma lowerBytes_idem (l : List Nat) : lowerBytes (lowerBytes l) = lowerBytes l := by
  induction l with
  | nil => rfl
  | cons b t ih =>
    simp only [lowerBytes, List.map_cons] at ih ⊢
    exact by rw [lowerB_idem]; exact congrArg _ ih

lemma goodKeys_insert (k v : List Nat) (hk : k ≠ []) (hl : lowerBytes k = k) :
    ∀ hs, goodKeys hs → goodKeys (insertHeader hs k v) := by
  intro hs
  induction hs with
  | nil =>
    intro _ p hp
    simp only [insertHeader, List.mem_singleton] at hp
    rw [hp]
    exact ⟨hk, hl⟩
  | cons q t ih =>
    intro hh p hp
    obtain ⟨k₀, vs⟩ := q
    by_cases h : k₀ = k
    · simp only [insertHeader, if_pos h, List.mem_cons] at hp
      rcases hp with h1 | h2
      · rw [h1]
        exact hh (k₀, vs) (by simp)
      · exact hh p (by simp [h2])
    · simp only [insertHeader, if_neg h, List.mem_cons] at hp
      rcases hp with h1 | h2
      · rw [h1]
        exact hh (k₀, vs) (by simp)
      · exact ih (fun q hq => hh q (by simp [hq])) p h2

lemma goodKeys_addHeaderLine (rd : ResponseData) (raw : List Nat)
    (h : goodKeys rd.headers) : goodKeys (addHeaderLine rd raw).headers := by
  unfold addHeaderLine
  split_ifs with e1 e2 e3 e4
  · exact h
  · exact fun p hp => absurd hp (by simp)
  · exact h
  · exact h
  · refine goodKeys_insert (headerKey raw) (headerVal raw) e4 ?_ rd.headers h
    unfold headerKey
    exact lowerBytes_idem _

lemma goodKeys_fold (lines : List (List Nat)) :
    ∀ rd : ResponseData, goodKeys rd.headers →
      goodKeys (List.foldl addHeaderLine rd lines).headers := by
  induction lines with
  | nil => intro rd h; exact h
  | cons l t ih =>
    intro rd h
    exact ih (addHeaderLine rd l) (goodKeys_addHeaderLine rd l h)


lemma takeWhile_ne58_of_not_mem (l : List Nat) (h : 58 ∉ l) :
    l.takeWhile (fun b => b ≠ 58) = l := by
  induction l with
  | nil => rfl
  | cons b t ih =>
    simp only [List.mem_cons, not_or] at h
    have hb : b ≠ 58 := fun he => h.1 he.symm
    simp only [List.takeWhile_cons, decide_eq_true_eq]
    rw [if_pos hb, ih h.2]

/-- C10, counterexample: the raw line `HTTP/1.1 404` is non-empty and
contains no colon, yet the accumulator does not silently drop it — it
clears the previously accumulated header and overwrites the status, so the
state changes. -/
theorem c10_counterexample :
    stripTrail (strBytes "HTTP/1.1 404") ≠ [] ∧
    58 ∉ stripTrail (strBytes "HTTP/1.1 404") ∧
    addHeaderLine { initResponse with headers := [(strBytes "x", [strBytes "y"])] }
        (strBytes "HTTP/1.1 404") ≠
      { initResponse with headers := [(strBytes "x", [strBytes "y"])] } := by
  decide

/-- C10, amended: the accumulator silently drops any line that does not
begin with `HTTP/` (after CR/LF stripping) and either lacks a colon or has
a name part that trims to the empty string; consequently every key in the
header mapping built from a fresh state is non-empty and is invariant
under lower-casing (contains no upper-case ASCII letter). -/
theorem c10_amended_dropped_lines (rd : ResponseData) (raw : List Nat)
    (lines : List (List Nat)) :
    (isPrefixB (strBytes "HTTP/") (stripTrail raw) = false →
      58 ∉ stripTrail raw → addHeaderLine rd raw = rd) ∧
    (isPrefixB (strBytes "HTTP/") (stripTrail raw) = false →
      trimBytes ((stripTrail raw).takeWhile (fun b => b ≠ 58)) = [] →
      addHeaderLine rd raw = rd) ∧
    (∀ p ∈ (List.foldl addHeaderLine initResponse lines).headers,
      p.1 ≠ [] ∧ lowerBytes p.1 = p.1) := by
  refine ⟨fun hhttp hcolon => ?_, fun hhttp hname => ?_, ?_⟩
  · unfold addHeaderLine
    split_ifs with e1 e2 e3 e4
    · rfl
    · exact absurd e2 (by simp [hhttp])
    · rfl
    · rfl
    · exact absurd (by rw [takeWhile_ne58_of_not_mem (stripTrail raw) hcolon]) e3
  · unfold addHeaderLine
    split_ifs with e1 e2 e3 e4
    · rfl
    · exact absurd e2 (by simp [hhttp])
    · rfl
    · rfl
    · exact absurd (by unfold headerKey; rw [hname]; rfl) e4
  · exact goodKeys_fold lines initResponse (fun p hp => absurd hp (by simp [initResponse]))

theorem c10_witness :
    addHeaderLine initResponse (strBytes "malformed line without colon\r\n") = initResponse ∧
    addHeaderLine initResponse (strBytes "   : value\r\n") = initResponse ∧
    ((strBytes "x-one", [strBytes "1"]) ∈
        (List.foldl addHeaderLine initResponse
          [strBytes "X-One: 1\r\n", strBytes "bogus\r\n"]).headers →
      strBytes "x-one" ≠ [] ∧ lowerBytes (strBytes "x-one") = strBytes "x-one") := by
  have h := c10_amended_dropped_lines initResponse
    (strBytes "malformed line without colon\r\n")
    [strBytes "X-One: 1\r\n", strBytes "bogus\r\n"]
  have h2 := c10_amended_dropped_lines initResponse (strBytes "   : value\r\n")
    [strBytes "X-One: 1\r\n", strBytes "bogus\r\n"]
  exact ⟨h.1 (by decide) (by decide), h2.2.1 (by decide) (by decide),
    fun hm => h.2.2 (strBytes "x-one", [strBytes "1"]) hm⟩

lemma strBytes_append (a b : String) : strBytes (a ++ b) = strBytes a ++ strBytes b := by
  simp [strBytes, String.data_append]

lemma instantiateTemplate_cons (s : MPSeg) (t : List MPSeg) (b : String) :
    instantiateTemplate (s :: t) b = instSeg b s ++ instantiateTemplate t b := rfl

lemma instantiateTemplate_append (t₁ t₂ : List MPSeg) (b : String) :
    instantiateTemplate (t₁ ++ t₂) b =
      instantiateTemplate t₁ b ++ instantiateTemplate t₂ b := by
  induction t₁ with
  | nil => rfl
  | cons s t ih =>
    rw [List.cons_append, instantiateTemplate_cons, instantiateTemplate_cons, ih,
      List.append_assoc]

lemma foldl_append_body (fields : List (String × MPField)) (b : String) :
    ∀ acc : List Nat,
      fields.foldl (fun acc nv => acc ++ fieldPart b nv.1 nv.2) acc =
        acc ++ fields.foldr (fun nv r => fieldPart b nv.1 nv.2 ++ r) [] := by
  induction fields with
  | nil => intro acc; simp
  | cons f t ih =>
    intro acc
    simp only [List.foldl_cons, List.foldr_cons]
    rw [ih, List.append_assoc]

lemma fieldTemplate_inst (b n : String) (v : MPField) :
    instantiateTemplate (fieldTemplate n v) b = fieldPart b n v := by
  simp [fieldTemplate, instantiateTemplate, instSeg, fieldPart, strBytes_append,
    List.append_assoc]

lemma build_eq_template (fields : List (String × MPField)) (b : String) :
    buildMultipartFromNapi fields b = instantiateTemplate (mpTemplate fields) b := by
  unfold buildMultipartFromNapi mpTemplate
  rw [foldl_append_body fields b [], instantiateTemplate_append]
  simp only [List.nil_append]
  congr 1
  · induction fields with
    | nil => rfl
    | cons f t ih =>
      simp only [List.foldr_cons]
      rw [instantiateTemplate_append, ih]
      congr 1
      exact (fieldTemplate_inst b f.1 f.2).symm
  · simp [instantiateTemplate, instSeg, strBytes_append, List.append_assoc]

/-- C8: the multipart body is a deterministic function of the field mapping
and the boundary token alone — both encodings of the same mapping equal the
same boundary-free template (fields in insertion order, then the closing
marker) instantiated at their respective boundary tokens, so the two bodies
are identical after substituting one boundary for the other. -/
theorem c8_deterministic_modulo_boundary (fields : List (String × MPField))
    (b1 b2 : String) :
    buildMultipartFromNapi fields b1 = instantiateTemplate (mpTemplate fields) b1 ∧
    buildMultipartFromNapi fields b2 = instantiateTemplate (mpTemplate fields) b2 := by
  exact ⟨build_eq_template fields b1, build_eq_template fields b2⟩

/-- C6, counterexample: a descriptor whose `value` property holds a
zero-length byte buffer is not emitted as a file part — `if (dataPtr &&
dataLen)` fails for a zero-length payload, so the part carries no filename
attribute and no Content-Type header; it is a plain text part with empty
text, refuting the claim for zero-length descriptor payloads. -/
theorem c6_counterexample :
    buildMultipartFromNapi
        [("x", MPField.obj ⟨some (JsVal.buffer []), none, none, some "a.txt",
          some "text/plain", "[object Object]"⟩)] "B" =
      strBytes "--B\r\nContent-Disposition: form-data; name=\"x\"\r\n\r\n\r\n--B--\r\n" ∧
    containsSeq
      (buildMultipartFromNapi
        [("x", MPField.obj ⟨some (JsVal.buffer []), none, none, some "a.txt",
          some "text/plain", "[object Object]"⟩)] "B")
      (strBytes "filename=") = false ∧
    containsSeq
      (buildMultipartFromNapi
        [("x", MPField.obj ⟨some (JsVal.buffer []), none, none, some "a.txt",
          some "text/plain", "[object Object]"⟩)] "B")
      (strBytes "Content-Type:") = false := by
  decide

/-- C6, amended: a raw byte buffer of any length, and a descriptor whose
`value`/`data`/`buffer` chain resolves to a non-empty byte payload, are
emitted as file parts — Content-Disposition with a filename attribute (the
descriptor's filename, or `blob` when absent or empty), then a Content-Type
header (the descriptor's contentType, or `application/octet-stream` when
absent or empty), then the raw bytes, then CRLF.  A descriptor resolving to
a zero-length payload, and any field without byte data, are emitted as
plain text parts with no filename attribute and no Content-Type header. -/
theorem c6_amended_file_parts (boundary name : String) (bytes : List Nat)
    (d : MPDescriptor) (s : String) :
    (fieldPart boundary name (MPField.buf bytes) =
      strBytes ("--" ++ boundary ++ "\r\n") ++
        strBytes ("Content-Disposition: form-data; name=\"" ++ name ++
          "\"; filename=\"" ++ "blob" ++ "\"\r\n" ++ "Content-Type: " ++
          "application/octet-stream" ++ "\r\n\r\n") ++ bytes ++ strBytes "\r\n") ∧
    (∀ b, resolvedBytes d = some b → b ≠ [] →
      fieldPart boundary name (MPField.obj d) =
        strBytes ("--" ++ boundary ++ "\r\n") ++
          strBytes ("Content-Disposition: form-data; name=\"" ++ name ++
            "\"; filename=\"" ++
            (if d.filename.getD "" = "" then "blob" else d.filename.getD "") ++
            "\"\r\n" ++ "Content-Type: " ++
            (if d.contentType.getD "" = "" then "application/octet-stream"
              else d.contentType.getD "") ++ "\r\n\r\n") ++ b ++ strBytes "\r\n") ∧
    (resolvedBytes d = some [] →
      fieldPart boundary name (MPField.obj d) =
        strBytes ("--" ++ boundary ++ "\r\n") ++
          strBytes ("Content-Disposition: form-data; name=\"" ++ name ++ "\"\r\n\r\n") ++
          strBytes "\r\n") ∧
    (resolvedBytes d = none →
      fieldPart boundary name (MPField.obj d) =
        strBytes ("--" ++ boundary ++ "\r\n") ++
          strBytes ("Content-Disposition: form-data; name=\"" ++ name ++ "\"\r\n\r\n") ++
          strBytes (objText d) ++ strBytes "\r\n") ∧
    (fieldPart boundary name (MPField.prim s) =
      strBytes ("--" ++ boundary ++ "\r\n") ++
        strBytes ("Content-Disposition: form-data; name=\"" ++ name ++ "\"\r\n\r\n") ++
        strBytes s ++ strBytes "\r\n") := by
  refine ⟨?_, fun b hres hbne => ?_, fun hres => ?_, fun hres => ?_, ?_⟩
  · simp [fieldPart, partRest, flushData, dispoFile, List.append_assoc]
  · simp [fieldPart, partRest, hres, hbne, flushData, dispoFile, List.append_assoc]
  · simp [fieldPart, partRest, hres, flushText, strBytes, List.append_assoc]
  · simp [fieldPart, partRest, hres, flushText, List.append_assoc]
  · simp [fieldPart, partRest, flushText, List.append_assoc]

theorem c6_witness :
    fieldPart "B" "f"
        (MPField.obj ⟨none, some (JsVal.buffer [7, 8]), none, some "a.txt",
          some "text/plain", "x"⟩) =
      strBytes "--B\r\nContent-Disposition: form-data; name=\"f\"; filename=\"a.txt\"\r\nContent-Type: text/plain\r\n\r\n" ++
        [7, 8] ++ strBytes "\r\n" ∧
    fieldPart "B" "g"
        (MPField.obj ⟨some (JsVal.buffer []), none, none, none, none, "x"⟩) =
      strBytes "--B\r\nContent-Disposition: form-data; name=\"g\"\r\n\r\n\r\n" := by
  have h1 := c6_amended_file_parts "B" "f" []
    ⟨none, some (JsVal.buffer [7, 8]), none, some "a.txt", some "text/plain", "x"⟩ ""
  have h2 := c6_amended_file_parts "B" "g" []
    ⟨some (JsVal.buffer []), none, none, none, none, "x"⟩ ""
  exact ⟨(h1.2.1 [7, 8] (by decide) (by decide)).trans (by decide),
    (h2.2.2.1 (by decide)).trans (by decide)⟩

lemma mem_ite_singleton_self {x : String} {c : Prop} [Decidable c] :
    x ∈ (if c then [x] else []) ↔ c := by
  split_ifs with h <;> simp [h]

lemma not_mem_ite_singleton {x y : String} {c : Prop} [Decidable c] (h : x ≠ y) :
    x ∉ (if c then [y] else []) := by
  split_ifs <;> simp [h]

lemma ct_line_length (bnd : String) :
    ("Content-Type: multipart/form-data; boundary=" ++ bnd).length = 44 + bnd.length := by
  rw [String.length_append]
  have h : ("Content-Type: multipart/form-data; boundary=" : String).length = 44 := by decide
  rw [h]

lemma short_ne_ct_line (s bnd : String) (h : s.length < 44) :
    s ≠ "Content-Type: multipart/form-data; boundary=" ++ bnd := by
  intro he
  have h2 := congrArg String.length he
  rw [ct_line_length] at h2
  omega

lemma execHeaderList_decompose (hs : List (String × String)) (dec um : Bool)
    (bnd : String) :
    execHeaderList hs dec um bnd =
      ((if !(hasProp hs "User-Agent" || hasProp hs "user-agent") then
          ["User-Agent: undici/6 naruyaizumi"] else []) ++
        (if !(hasProp hs "Accept-Encoding" || hasProp hs "accept-encoding") && dec then
          ["Accept-Encoding: br, gzip, deflate"] else []) ++
        (if !(hasProp hs "Connection" || hasProp hs "connection") then
          ["Connection: keep-alive"] else []) ++
        (if !(hasProp hs "Expect" || hasProp hs "expect") then ["Expect:"] else []) ++
        (if um && !(hasProp hs "Content-Type" || hasProp hs "content-type") then
          ["Content-Type: multipart/form-data; boundary=" ++ bnd] else [])) ++
      callerHeaderLines hs := by
  simp only [execHeaderList]
  split_ifs <;> simp

/-- C4, counterexample: the caller header name `USER-AGENT` matches
`User-Agent` case-insensitively, yet the default User-Agent header is still
injected — the constructor only checks the two exact spellings
`User-Agent` and `user-agent`, so the claim's "any casing suppresses the
default" is false at this input. -/
theorem c4_counterexample :
    specCIMatch [("USER-AGENT", "x")] "User-Agent" = true ∧
    "User-Agent: undici/6 naruyaizumi" ∈ execHeaderList [("USER-AGENT", "x")] true false "" := by
  constructor
  · decide
  · decide

/-- C4, amended: a default header is injected if and only if the caller's
mapping contains neither the canonical spelling nor the all-lower-case
spelling of its name as an exact property key (any other casing does not
suppress it); the Accept-Encoding default additionally requires the
decompress flag; and the caller-supplied header lines always come after the
injected defaults, as the final segment of the outgoing list. -/
theorem c4_amended_default_headers (hs : List (String × String)) (dec um : Bool)
    (bnd : String) :
    ∃ pre, execHeaderList hs dec um bnd = pre ++ callerHeaderLines hs ∧
      (("User-Agent: undici/6 naruyaizumi" ∈ pre) ↔
        (hasProp hs "User-Agent" = false ∧ hasProp hs "user-agent" = false)) ∧
      (("Accept-Encoding: br, gzip, deflate" ∈ pre) ↔
        (hasProp hs "Accept-Encoding" = false ∧ hasProp hs "accept-encoding" = false ∧
          dec = true)) ∧
      (("Connection: keep-alive" ∈ pre) ↔
        (hasProp hs "Connection" = false ∧ hasProp hs "connection" = false)) ∧
      (("Expect:" ∈ pre) ↔ (hasProp hs "Expect" = false ∧ hasProp hs "expect" = false)) := by
  refine ⟨_, execHeaderList_decompose hs dec um bnd, ?_, ?_, ?_, ?_⟩
  · have n2 : ("User-Agent: undici/6 naruyaizumi" : String) ∉
        (if !(hasProp hs "Accept-Encoding" || hasProp hs "accept-encoding") && dec then
          ["Accept-Encoding: br, gzip, deflate"] else []) :=
      not_mem_ite_singleton (by decide)
    have n3 : ("User-Agent: undici/6 naruyaizumi" : String) ∉
        (if !(hasProp hs "Connection" || hasProp hs "connection") then
          ["Connection: keep-alive"] else []) :=
      not_mem_ite_singleton (by decide)
    have n4 : ("User-Agent: undici/6 naruyaizumi" : String) ∉
        (if !(hasProp hs "Expect" || hasProp hs "expect") then ["Expect:"] else []) :=
      not_mem_ite_singleton (by decide)
    simp [List.mem_append, mem_ite_singleton_self, n2, n3, n4]
    intro _ _ _ he
    exact absurd he (short_ne_ct_line _ bnd (by decide))
  · have n1 : ("Accept-Encoding: br, gzip, deflate" : String) ∉
        (if !(hasProp hs "User-Agent" || hasProp hs "user-agent") then
          ["User-Agent: undici/6 naruyaizumi"] else []) :=
      not_mem_ite_singleton (by decide)
    have n3 : ("Accept-Encoding: br, gzip, deflate" : String) ∉
        (if !(hasProp hs "Connection" || hasProp hs "connection") then
          ["Connection: keep-alive"] else []) :=
      not_mem_ite_singleton (by decide)
    have n4 : ("Accept-Encoding: br, gzip, deflate" : String) ∉
        (if !(hasProp hs "Expect" || hasProp hs "expect") then ["Expect:"] else []) :=
      not_mem_ite_singleton (by decide)
    simp [List.mem_append, mem_ite_singleton_self, n1, n3, n4, and_assoc]
    intro _ _ _ he
    exact absurd he (short_ne_ct_line _ bnd (by decide))
  · have n1 : ("Connection: keep-alive" : String) ∉
        (if !(hasProp hs "User-Agent" || hasProp hs "user-agent") then
          ["User-Agent: undici/6 naruyaizumi"] else []) :=
      not_mem_ite_singleton (by decide)
    have n2 : ("Connection: keep-alive" : String) ∉
        (if !(hasProp hs "Accept-Encoding" || hasProp hs "accept-encoding") && dec then
          ["Accept-Encoding: br, gzip, deflate"] else []) :=
      not_mem_ite_singleton (by decide)
    have n4 : ("Connection: keep-alive" : String) ∉
        (if !(hasProp hs "Expect" || hasProp hs "expect") then ["Expect:"] else []) :=
      not_mem_ite_singleton (by decide)
    simp [List.mem_append, mem_ite_singleton_self, n1, n2, n4]
    intro _ _ _ he
    exact absurd he (short_ne_ct_line _ bnd (by decide))
  · have n1 : ("Expect:" : String) ∉
        (if !(hasProp hs "User-Agent" || hasProp hs "user-agent") then
          ["User-Agent: undici/6 naruyaizumi"] else []) :=
      not_mem_ite_singleton (by decide)
    have n2 : ("Expect:" : String) ∉
        (if !(hasProp hs "Accept-Encoding" || hasProp hs "accept-encoding") && dec then
          ["Accept-Encoding: br, gzip, deflate"] else []) :=
      not_mem_ite_singleton (by decide)
    have n3 : ("Expect:" : String) ∉
        (if !(hasProp hs "Connection" || hasProp hs "connection") then
          ["Connection: keep-alive"] else []) :=
      not_mem_ite_singleton (by decide)
    simp [List.mem_append, mem_ite_singleton_self, n1, n2, n3]
    intro _ _ _ he
    exact absurd he (short_ne_ct_line _ bnd (by decide))
